import Mathlib

/-!
Verification development for the hpycc spray/upload pipeline.

The Python sources embedded here are `hpycc/spray.py`,
`hpycc/filerunning/sendfiles.py`, `hpycc/save.py`,
`hpycc/scriptrunning/runscript.py` and `hpycc/utils/syntaxcheck.py`.
A tabular dataset is modelled as a list of rows of optional strings
(`none` is a missing value, pandas NaN); all columns are string-typed,
mirroring `_get_type`, which always returns STRING.

`hpycc/utils/filechunker.py` (the chunk planner `make_chunks`) is not part
of the sources; it is modelled from the specification, as marked below.
-/

namespace Hpycc

/-- The single-quote character (code 39), written via `Char.ofNat`. -/
def qc : Char := Char.ofNat 39

/-- The backslash character (code 92). -/
def bsc : Char := Char.ofNat 92

/-- One single quote as a string. -/
def sq : String := String.mk [qc]

/-- One backslash as a string. -/
def bs : String := String.mk [bsc]

/-- Wrap a string in single quotes, as the serializers do. -/
def q (s : String) : String := sq ++ s ++ sq

/-- Python `str.lower()` restricted to what the sources compare against
(ASCII markers), implemented character-wise so that it evaluates in the
kernel. -/
def lowerStr (s : String) : String := String.mk (s.data.map Char.toLower)

/-- `series.str.replace("'", "\\'")` from both serializers: every single
quote becomes backslash-quote. -/
def escapeQuotes (s : String) : String :=
  String.mk ((s.data.map (fun c => if c = qc then [bsc, qc] else [c])).flatten)

/-- Decimal digit character, `Char.ofNat (48 + n)` for `n < 10`. -/
def digitChar (n : Nat) : Char := Char.ofNat (48 + n)

/-- Decimal digits of a natural number, most significant first, with
explicit fuel so the definition is structurally recursive and evaluates
in the kernel.  `natStr` below always supplies enough fuel. -/
def natDigitsGo : Nat → Nat → List Char
  | 0, _ => []
  | fuel + 1, n =>
      if n < 10 then [digitChar n]
      else natDigitsGo fuel (n / 10) ++ [digitChar (n % 10)]

/-- Python `str(n)` for a non-negative integer: its decimal digits. -/
def natStr (n : Nat) : String := String.mk (natDigitsGo (n + 1) n)

/-- Left inverse of `natDigitsGo`: fold decimal digits back to a number. -/
def parseDigits (l : List Char) : Nat :=
  l.foldl (fun a c => 10 * a + (c.toNat - 48)) 0

/-- Chunk planner.  Modelled from the spec: `hpycc/utils/filechunker.py`
(`make_chunks`) is not under the sources; spec section 4.3 says: partition
`[0, totalRows)` into consecutive ranges of length `chunkSize`, last range
shortened to the remainder; an empty plan for `totalRows == 0`.  Fuel keeps
the recursion structural (the fuel `total` is always sufficient since every
step consumes at least one remaining row). -/
def makeChunksGo (chunk : Nat) : Nat → Nat → Nat → List (Nat × Nat)
  | 0, _, _ => []
  | fuel + 1, start, remaining =>
      if remaining = 0 ∨ chunk = 0 then []
      else
        (start, min chunk remaining) ::
          makeChunksGo chunk fuel (start + min chunk remaining)
            (remaining - min chunk remaining)

/-- Chunk planner entry point: list of `(startRow, rowCount)` pairs. -/
def make_chunks (total chunkSize : Nat) : List (Nat × Nat) :=
  makeChunksGo chunkSize total 0 total

/-- The row indices covered by a chunk plan, in plan order: the
concatenation of each range's indices.  The plan is contiguous,
non-overlapping and covers `[0, total)` exactly iff this equals
`List.range total`. -/
def chunkFlat (plan : List (Nat × Nat)) : List Nat :=
  (plan.map (fun p => (List.range p.2).map (fun i => p.1 + i))).flatten

/-- In-memory dataset: ordered column names and rows of optional strings
(`none` = missing).  All columns are string-typed (`_get_type` always
returns STRING). -/
structure DataFrame where
  cols : List String
  rows : List (List (Option String))
deriving DecidableEq

/-- The per-cell transformation of `spray.py:_stringify_rows` for a STRING
column: `fillna("")`, escape single quotes, wrap in single quotes. -/
def quoteCell (c : Option String) : String :=
  sq ++ escapeQuotes (c.getD ("")) ++ sq

/-- `spray.py:_stringify_rows`, with the caller-visible frame threaded
through.  `df.loc[start_row:start_row + num_rows, df.columns]` label-slices
a default RangeIndex, which is inclusive of BOTH endpoints (clipped to the
existing labels), and — because the columns are selected by a list — it
returns a copy, so the per-column assignments and the in-place
`reset_index` mutate only that copy; the second component is the caller's
frame after the call.  `reset_index` moves the original row labels
(`start_row + i`) in as an extra first column, which `astype(str)` then
renders alongside the data columns. -/
def stringifyRowsState (df : DataFrame) (startRow numRows : Nat) :
    String × DataFrame :=
  let sliced := (df.rows.drop startRow).take (numRows + 1)
  let quoted := sliced.map (fun r => r.map quoteCell)
  let withIndex := quoted.enum.map (fun p => natStr (startRow + p.1) :: p.2)
  (String.intercalate (",")
      (withIndex.map (fun r =>
        ("\x7b") ++ String.intercalate (",") r ++ ("\x7d"))),
    df)

/-- The string produced by `spray.py:_stringify_rows`. -/
def stringify_rows (df : DataFrame) (startRow numRows : Nat) : String :=
  (stringifyRowsState df startRow numRows).1

/-- Modelled from the spec (section 4.2), for comparison with
`stringify_rows`: a literal list of exactly the rows with indices in
`[start, start + count)`, each row rendered `{v1,v2,...}` from the
dataset's (normalized, quoted) value representation, with no extra
index column. -/
def rowSerializerSpec (df : DataFrame) (startRow numRows : Nat) : String :=
  let sliced := (df.rows.drop startRow).take numRows
  String.intercalate (",")
    (sliced.map (fun r =>
      ("\x7b") ++ String.intercalate (",") (r.map quoteCell) ++ ("\x7d")))

/-- `re.sub('[^A-Za-z0-9]', '', nam)` from `sendfiles.py:make_recordset`:
keep only ASCII letters and digits. -/
def sanitize (nam : String) : String :=
  String.mk (nam.data.filter Char.isAlphanum)

/-- Name sanitization of one column in `make_recordset`: strip to
`[A-Za-z0-9]`; an empty result becomes `unnamed<N>` (N counts anonymous
columns); a leading digit gets a `num` prefix.  Returns the safe name and
the updated anonymous-column counter. -/
def baseName (unnamedCount : Nat) (nam : String) : String × Nat :=
  match (sanitize nam).data with
  | [] => (("unnamed") ++ natStr unnamedCount, unnamedCount + 1)
  | c :: _ =>
      ((if c.isDigit then ("num") ++ sanitize nam else sanitize nam),
        unnamedCount)

/-- The candidate inspected at step `k` of the collision loop
`while new_entry + str(column_append) in record_set`: suffix `''` at step
0, then `'1'`, `'2'`, ... -/
def entryCandidate (entry : String) (k : Nat) : String :=
  if k = 0 then entry else entry ++ natStr k

/-- The collision loop of `make_recordset`: the first candidate (smallest
suffix, no suffix first) not already in the record set.  The search range
`entries.length + 2` always suffices (pigeonhole over the distinct
candidates), so the `none` fallback is unreachable. -/
def pickEntry (entries : List String) (entry : String) : String :=
  match (List.range (entries.length + 2)).find?
      (fun k => decide (entryCandidate entry k ∉ entries)) with
  | some k => entryCandidate entry k
  | none => entry

/-- The entry-accumulating loop of `sendfiles.py:make_recordset`: for each
column, build `'STRING ' + safe_name`, resolve collisions, append. -/
def recordEntriesGo : List String → List String → Nat → List String
  | [], entries, _ => entries
  | nam :: rest, entries, k =>
      let b := baseName k nam
      recordEntriesGo rest
        (entries ++ [pickEntry entries (("STRING ") ++ b.1)]) b.2

/-- The record-set entries derived by `make_recordset` for the given
column names (one `STRING <name>` string per column). -/
def make_recordset_entries (cols : List String) : List String :=
  recordEntriesGo cols [] 0

/-- `record_set = ';'.join(record_set)` of `make_recordset`. -/
def make_recordset (cols : List String) : String :=
  String.intercalate (";") (make_recordset_entries cols)

/-- `df[nam].astype('str')`: a missing value renders as the text `nan`. -/
def astypeStr : Option String → String
  | none => "nan"
  | some s => s

/-- The textual null markers blanked by `make_recordset`
(`df.loc[df[nam].str.lower() == 'nan'/'na'/'null', nam] = ''`, three
sequential masks, equivalent to one membership test since `''` matches
none of them). -/
def nullMarkers : List String := [("nan"), ("na"), ("null")]

/-- The per-cell STRING-column normalization of
`sendfiles.py:make_recordset`: `astype(str)`, blank the case-insensitive
markers nan/na/null, escape single quotes, wrap in single quotes. -/
def normalizeCell (c : Option String) : String :=
  sq ++
    escapeQuotes
      (if lowerStr (astypeStr c) ∈ nullMarkers then ("") else astypeStr c)
    ++ sq

/-- The dataset after `make_recordset`'s in-place normalization (it
mutates every column of the frame it is given). -/
def cookRows (df : DataFrame) : List (List String) :=
  df.rows.map (List.map normalizeCell)

/-- `sendfiles.py:make_rows`: `df.loc[start:end, :]` (label slice on a
default RangeIndex: inclusive of both endpoints, clipped), each row joined
with commas inside braces, rows joined with commas. -/
def make_rows (rows : List (List String)) (startRow stopRow : Nat) :
    String :=
  let sliced := (rows.drop startRow).take (stopRow + 1 - startRow)
  String.intercalate (",")
    (sliced.map (fun r =>
      ("\x7b") ++ String.intercalate (",") r ++ ("\x7d")))

/-- Cluster-side effects of the upload pipeline: a script submission that
OUTPUTs data to a logical file, a concatenation script reading the sources
into the target, and a logical-file deletion. -/
inductive Action where
  | submit : String → String → Action
  | concat : List String → String → Action
  | deleteLF : String → Action
deriving DecidableEq

/-- `"TEMPHPYCC::{}from{}to{}".format(logical_file, start, stop)`: the
deterministic temporary-file name both upload paths compute. -/
def tmpName (target : String) (startRow stopRow : Nat) : String :=
  ("TEMPHPYCC::") ++ target ++ ("from") ++ natStr startRow ++ ("to") ++
    natStr stopRow

/-- The temporary names `spray.py:spray_file` computes for its chunks
(`start_row` to `start_row + num_rows`). -/
def sprayTmpNames (df : DataFrame) (target : String) (chunkSize : Nat) :
    List String :=
  (make_chunks df.rows.length chunkSize).map
    (fun p => tmpName target p.1 (p.1 + p.2))

/-- `spray.py:spray_file`, sequentialized.  `gw` is the Execution Gateway:
the result of running one submission script (an error is a non-empty error
stream).  The worker pool runs every chunk submission and
`concurrent.futures.wait` joins them, but the futures' results are bound
to throwaway names (`_, __ = concurrent.futures.wait(futures)`) and never
inspected, which `_results` mirrors; then `concatenate_logical_files` runs
unconditionally.  A concatenation error propagates in the main thread, so
the delete loop after it is only reached when concatenation succeeds;
`delete_logical_file` is not under the sources and per the spec (sections
6 and 7) a delete failure is reported but never escalated, so deletes
raise nothing.  Returns the performed actions and the error the caller
sees (`none` = the call returns None). -/
def sprayFileRun (gw : Action → Except String Unit) (df : DataFrame)
    (target : String) (chunkSize : Nat) : List Action × Option String :=
  let plan := make_chunks df.rows.length chunkSize
  let names := sprayTmpNames df target chunkSize
  let submitActs := (plan.zip names).map
    (fun pn => Action.submit pn.2 (stringify_rows df pn.1.1 pn.1.2))
  let _results := submitActs.map gw
  match gw (Action.concat names target) with
  | Except.error e => (submitActs ++ [Action.concat names target], some e)
  | Except.ok _ =>
      (submitActs ++ [Action.concat names target] ++
        names.map Action.deleteLF, none)

/-- The caller's frame after `spray_file` ran on a DataFrame passed
directly: the record set derivation only reads `df.dtypes`, and each
chunk's `_stringify_rows` call threads the frame through
`stringifyRowsState` (whose mutations hit the slice copy). -/
def sprayFileRunDf (df : DataFrame) (chunkSize : Nat) : DataFrame :=
  (make_chunks df.rows.length chunkSize).foldl
    (fun cur p => (stringifyRowsState cur p.1 p.2).2) df

/-- The logical-file name a submission action wrote to, if any. -/
def submitName : Action → Option String
  | Action.submit n _ => some n
  | _ => none

/-- The logical-file name a delete action removed, if any. -/
def deleteName : Action → Option String
  | Action.deleteLF n => some n
  | _ => none

/-- Names of the logical files that submission actions wrote to. -/
def submitTargets (l : List Action) : List String :=
  l.filterMap submitName

/-- Names of the logical files that delete actions removed. -/
def deletesOf (l : List Action) : List String :=
  l.filterMap deleteName

/-- The concatenation actions of a trace. -/
def concatsOf (l : List Action) : List Action :=
  l.filter (fun a =>
    match a with
    | Action.concat _ _ => true
    | _ => false)

/-- `sendfiles.py:_send_file_in_chunks`, lines 65-74: for each chunk
`(start, end)` it computes `target_name_tmp = TEMPHPYCC::<target>from
<start>to<end>` and appends it to `target_names`, but calls
`send_data(all_rows, record_set, target_name, ...)` — the FINAL target,
not the temporary — then `concat_files` reads the accumulated temporary
names into the target.  The `(start, end)` pairs come from
`hpycc.utils.filechunker.make_chunks` break positions (not under the
sources), so they are a parameter here; the claim-relevant behaviour does
not depend on them. -/
def sendChunksTrace (rows : List (List String)) (target : String)
    (pairs : List (Nat × Nat)) : List Action :=
  (pairs.map (fun p => Action.submit target (make_rows rows p.1 p.2))) ++
    [Action.concat (pairs.map (fun p => tmpName target p.1 p.2)) target]

/-- `sendfiles.py:send_file_internal`: normalize the frame via
`make_recordset`, then `if len(df) > chunk_size` go through
`_send_file_in_chunks`, else a single direct `send_data` of
`make_rows(df, 0, len(df))` to the target. -/
def sendFileInternalTrace (df : DataFrame) (target : String)
    (chunkSize : Nat) (pairs : List (Nat × Nat)) : List Action :=
  if chunkSize < (cookRows df).length then
    sendChunksTrace (cookRows df) target pairs
  else
    [Action.submit target (make_rows (cookRows df) 0 (cookRows df).length)]

/-- The `(name, type)` pairs `spray.py:_make_record_set` derives:
`df.dtypes.to_dict().items()` (duplicate column names collapse to their
first occurrence, in insertion order) with no sanitization at all. -/
def sprayRecordPairs (cols : List String) : List (String × String) :=
  (cols.eraseDups).map (fun c => (c, ("STRING")))

/-- `spray.py:_make_record_set`: `' '.join((col, 'STRING'))` per column,
joined with `;`. -/
def spray_make_record_set (cols : List String) : String :=
  String.intercalate (";")
    ((sprayRecordPairs cols).map (fun p => p.1 ++ (" ") ++ p.2))

/-- A character list matching `[A-Za-z][A-Za-z0-9]*`: nonempty, leading
ASCII letter, all alphanumeric. -/
def goodChars (l : List Char) : Bool :=
  (l.head?.elim false Char.isAlpha) && l.all Char.isAlphanum

/-- An ECL-safe identifier: matches `^[A-Za-z][A-Za-z0-9]*$`. -/
def goodName (s : String) : Bool := goodChars s.data

/-- A well-formed record-set entry: `STRING ` followed by a safe name. -/
def GoodEntry (e : String) : Prop :=
  ∃ nm, e = ("STRING ") ++ nm ∧ goodName nm = true

/-- `itertools.zip_longest` on two string lists, filling with `None`. -/
def zipLongest : List String → List String → List (Option String × Option String)
  | [], [] => []
  | x :: xs, [] => (some x, none) :: zipLongest xs []
  | [], y :: ys => (none, some y) :: zipLongest [] ys
  | x :: xs, y :: ys => (some x, some y) :: zipLongest xs ys

/-- Outcome of `save.py:save_outputs`: the `(path, output name)` pairs
written with `to_csv`, and the exception the caller sees, if any. -/
structure SaveRun where
  writes : List (String × String)
  raised : Option String
deriving DecidableEq

/-- `save.py:save_outputs` after the gateway call: `results` are the
`(name, content)` pairs parsed from the run's stdout.  It derives
`parsed_filenames` as `<name>.csv`, then builds `chosen_filenames` from
`itertools.zip_longest(filenames, parsed_filenames)` — which raises
`TypeError` when `filenames` is `None` (its documented default), before
the write loop runs; a falsy filename falls back to the parsed one, an
optional prefix is prepended, and `zip(chosen, parsed)` drives the
`to_csv` writes into `directory`. -/
def save_outputs (filenames : Option (List String))
    (results : List (String × String)) (directory : String)
    (pre : Option String) : SaveRun :=
  let parsedFilenames := results.map (fun r => r.1 ++ (".csv"))
  match filenames with
  | none => SaveRun.mk [] (some ("TypeError"))
  | some fns =>
      let chosen := (zipLongest fns parsedFilenames).map (fun p =>
        match p.1 with
        | some fn => if fn = "" then p.2 else some fn
        | none => p.2)
      let chosen2 :=
        match pre with
        | some px => chosen.map (Option.map (fun n => px ++ n))
        | none => chosen
      SaveRun.mk
        ((chosen2.zip results).map
          (fun p => (directory ++ ("/") ++ (p.1.getD ("")), p.2.1)))
        none

/-- A three-row, one-column demonstration frame. -/
def demoDf3 : DataFrame :=
  DataFrame.mk [("letters")] [[some ("a")], [some ("b")], [some ("c")]]

/-- A four-row, one-column demonstration frame. -/
def demoDf4 : DataFrame :=
  DataFrame.mk [("letters")]
    [[some ("a")], [some ("b")], [some ("c")], [some ("d")]]

/-- A gateway on which every script submission succeeds. -/
def gwOk : Action → Except String Unit := fun _ => Except.ok ()

/-- A gateway on which the submission of the first chunk of `demoDf3`
(chunk size 2, target `out`) reports a non-empty error stream and every
other script succeeds. -/
def gwFailFirstSubmit : Action → Except String Unit := fun a =>
  match a with
  | Action.submit n _ =>
      if n = tmpName ("out") 0 2 then Except.error ("Error")
      else Except.ok ()
  | _ => Except.ok ()

/-- A gateway on which the concatenation script fails and every plain
submission succeeds. -/
def gwFailConcat : Action → Except String Unit := fun a =>
  match a with
  | Action.concat _ _ => Except.error ("Error")
  | _ => Except.ok ()

/-! ### Decimal-string facts -/

theorem digitChar_toNat {n : Nat} (h : n < 10) :
    (digitChar n).toNat = 48 + n := by
  interval_cases n <;> rfl

theorem digitChar_isDigit {n : Nat} (h : n < 10) :
    (digitChar n).isDigit = true := by
  interval_cases n <;> rfl

theorem parseDigits_append (l : List Char) (c : Char) :
    parseDigits (l ++ [c]) = 10 * parseDigits l + (c.toNat - 48) := by
  simp [parseDigits, List.foldl_append]

theorem parseDigits_natDigitsGo :
    ∀ fuel n, n < fuel → parseDigits (natDigitsGo fuel n) = n := by
  intro fuel
  induction fuel with
  | zero => omega
  | succ fuel ih =>
      intro n hn
      rw [natDigitsGo]
      by_cases h10 : n < 10
      · simp only [if_pos h10]
        simp [parseDigits, digitChar_toNat h10]
      · simp only [if_neg h10]
        rw [parseDigits_append, ih (n / 10) (by omega),
          digitChar_toNat (Nat.mod_lt n (by omega))]
        omega

theorem natStr_injective : Function.Injective natStr := by
  intro a b h
  have hd : natDigitsGo (a + 1) a = natDigitsGo (b + 1) b :=
    congrArg String.data h
  have ha := parseDigits_natDigitsGo (a + 1) a (by omega)
  have hb := parseDigits_natDigitsGo (b + 1) b (by omega)
  rw [hd, hb] at ha
  exact ha.symm

theorem natDigitsGo_digits :
    ∀ fuel n, ∀ c ∈ natDigitsGo fuel n, c.isDigit = true := by
  intro fuel
  induction fuel with
  | zero => intro n c hc; simp [natDigitsGo] at hc
  | succ fuel ih =>
      intro n c hc
      rw [natDigitsGo] at hc
      by_cases h10 : n < 10
      · simp only [if_pos h10, List.mem_singleton] at hc
        exact hc ▸ digitChar_isDigit h10
      · simp only [if_neg h10, List.mem_append, List.mem_singleton] at hc
        rcases hc with hc | hc
        · exact ih (n / 10) c hc
        · exact hc ▸ digitChar_isDigit (Nat.mod_lt n (by omega))

theorem natStr_digits (n : Nat) : ∀ c ∈ (natStr n).data, c.isDigit = true :=
  fun c hc => natDigitsGo_digits (n + 1) n c hc

/-! ### Chunk-planner facts -/

theorem chunkFlat_nil : chunkFlat [] = [] := rfl

theorem chunkFlat_cons (p : Nat × Nat) (l : List (Nat × Nat)) :
    chunkFlat (p :: l) =
      (List.range p.2).map (fun i => p.1 + i) ++ chunkFlat l := by
  simp [chunkFlat]

theorem makeChunksGo_flat (chunk : Nat) (hc : 0 < chunk) :
    ∀ fuel remaining start, remaining ≤ fuel →
      chunkFlat (makeChunksGo chunk fuel start remaining) =
        (List.range remaining).map (fun i => start + i) := by
  intro fuel
  induction fuel with
  | zero =>
      intro remaining start h
      have : remaining = 0 := by omega
      subst this
      rfl
  | succ fuel ih =>
      intro remaining start h
      rw [makeChunksGo]
      by_cases h0 : remaining = 0
      · subst h0; simp [chunkFlat]
      · rw [if_neg (by omega)]
        rw [chunkFlat_cons]
        rw [ih (remaining - min chunk remaining)
          (start + min chunk remaining) (by omega)]
        have hm : remaining = min chunk remaining +
            (remaining - min chunk remaining) := by omega
        conv_rhs => rw [hm, List.range_add]
        rw [List.map_append, List.map_map]
        congr 1
        apply List.map_congr_left
        intro a _
        simp only [Function.comp_apply]
        omega

theorem makeChunksGo_length (chunk : Nat) (hc : 0 < chunk) :
    ∀ fuel remaining start, remaining ≤ fuel →
      (makeChunksGo chunk fuel start remaining).length =
        (remaining + chunk - 1) / chunk := by
  intro fuel
  induction fuel with
  | zero =>
      intro remaining start h
      have h0 : remaining = 0 := by omega
      subst h0
      show ([] : List (Nat × Nat)).length = (0 + chunk - 1) / chunk
      rw [List.length_nil, Nat.div_eq_of_lt (by omega)]
  | succ fuel ih =>
      intro remaining start h
      rw [makeChunksGo]
      by_cases h0 : remaining = 0
      · subst h0
        rw [if_pos (Or.inl rfl)]
        rw [List.length_nil, Nat.div_eq_of_lt (by omega)]
      · rw [if_neg (by omega)]
        rw [List.length_cons,
          ih (remaining - min chunk remaining)
            (start + min chunk remaining) (by omega)]
        by_cases hsmall : remaining ≤ chunk
        · have h1 : min chunk remaining = remaining := by omega
          rw [h1]
          simp only [Nat.sub_self]
          rw [Nat.div_eq_of_lt (by omega)]
          have h2 : remaining + chunk - 1 = (remaining - 1) + chunk := by
            omega
          rw [h2, Nat.add_div_right _ hc, Nat.div_eq_of_lt (by omega)]
        · have h1 : min chunk remaining = chunk := by omega
          rw [h1]
          have h2 : remaining - chunk + chunk - 1 = remaining - 1 := by
            omega
          have h3 : remaining + chunk - 1 = (remaining - 1) + chunk := by
            omega
          rw [h2, h3, Nat.add_div_right _ hc]

/-! ### Claim theorems -/

/-- Claim C1: for every `totalRows ≥ 0` and `chunkSize > 0`, the chunk
plan used by the spray operation is a sequence of `(startRow, rowCount)`
ranges that are contiguous, non-overlapping, and whose union is exactly
`[0, totalRows)` — equivalently, the plan's indices concatenated in order
are exactly `List.range totalRows` — the number of ranges equals
`ceil(totalRows / chunkSize)`, and it is 0 when `totalRows = 0`. -/
theorem make_chunks_plan_spec (total chunkSize : Nat) (hc : 0 < chunkSize) :
    chunkFlat (make_chunks total chunkSize) = List.range total ∧
    (make_chunks total chunkSize).length =
      (total + chunkSize - 1) / chunkSize ∧
    (total = 0 → make_chunks total chunkSize = []) := by
  refine ⟨?_, ?_, ?_⟩
  · rw [make_chunks,
      makeChunksGo_flat chunkSize hc total total 0 (le_refl total)]
    simp
  · exact makeChunksGo_length chunkSize hc total total 0 (le_refl total)
  · intro h
    subst h
    rfl

/-- Witness for `make_chunks_plan_spec` at `totalRows = 25`,
`chunkSize = 10` (the spec's Scenario 2 plan `[(0,10),(10,10),(20,5)]`). -/
theorem make_chunks_plan_spec_witness :
    0 < 10 ∧
      (chunkFlat (make_chunks 25 10) = List.range 25 ∧
        (make_chunks 25 10).length = (25 + 10 - 1) / 10 ∧
        (25 = 0 → make_chunks 25 10 = [])) :=
  ⟨by decide, make_chunks_plan_spec 25 10 (by decide)⟩

/-- Claim C2 (code bug, evaluated at the failing input): on a three-row
frame, `_stringify_rows(df, 0, 2)` — the planned range `[0, 2)` — returns
the literal for THREE rows, not two (pandas `.loc` label slicing is
end-inclusive), and each row leaks the original row label as an extra
leading value (`reset_index` inserts the old index as a column); the
spec's serializer on the same range yields exactly rows 0 and 1 with
column values only. -/
theorem stringify_rows_off_by_one_and_index :
    stringify_rows demoDf3 0 2 =
      ("\x7b0,") ++ q ("a") ++ ("\x7d,\x7b1,") ++ q ("b") ++
        ("\x7d,\x7b2,") ++ q ("c") ++ ("\x7d") ∧
    rowSerializerSpec demoDf3 0 2 =
      ("\x7b") ++ q ("a") ++ ("\x7d,\x7b") ++ q ("b") ++ ("\x7d") ∧
    stringify_rows demoDf3 0 2 ≠ rowSerializerSpec demoDf3 0 2 := by
  refine ⟨rfl, rfl, by decide⟩

/-- Claim C3 (code bug, evaluated at the failing input): spraying
`demoDf3` with chunk size 2 over a gateway on which the first chunk's
submission reports a non-empty error stream, `spray_file` still reaches
the barrier and waits, but the futures' results are never read: the run
raises nothing to the caller (`none`) and the concatenation is attempted
anyway. -/
theorem spray_swallows_submit_error :
    gwFailFirstSubmit
        (Action.submit (tmpName ("out") 0 2) (stringify_rows demoDf3 0 2)) =
      Except.error ("Error") ∧
    (sprayFileRun gwFailFirstSubmit demoDf3 ("out") 2).2 = none ∧
    concatsOf (sprayFileRun gwFailFirstSubmit demoDf3 ("out") 2).1 =
      [Action.concat [tmpName ("out") 0 2, tmpName ("out") 2 3] ("out")] := by
  refine ⟨rfl, rfl, rfl⟩

/-- Claim C4 counterexample: a three-row frame uploaded through
`spray_file` with chunk size 10 is NOT submitted directly to the target:
the single submission goes to the temporary
`TEMPHPYCC::outfrom0to3` (distinct from the target), which is then
concatenated into the target and deleted — a temporary logical file is
created even though the dataset fits in one chunk. -/
theorem spray_small_creates_temporary :
    submitTargets (sprayFileRun gwOk demoDf3 ("out") 10).1 =
      [tmpName ("out") 0 3] ∧
    deletesOf (sprayFileRun gwOk demoDf3 ("out") 10).1 =
      [tmpName ("out") 0 3] ∧
    tmpName ("out") 0 3 ≠ ("out") := by
  refine ⟨rfl, rfl, by decide⟩

/-- Claim C4 (amended): in the `send_file_internal` path, a dataset whose
row count is at most the chunk size is uploaded as a single direct
submission of the whole serialized dataset to the target, with no
temporary logical files, no concatenation and no deletes; the `spray_file`
path instead always routes through one temporary chunk (see the
counterexample). -/
theorem send_file_internal_direct_small (df : DataFrame) (target : String)
    (chunkSize : Nat) (pairs : List (Nat × Nat))
    (h : (cookRows df).length ≤ chunkSize) :
    sendFileInternalTrace df target chunkSize pairs =
      [Action.submit target
        (make_rows (cookRows df) 0 (cookRows df).length)] ∧
    submitTargets (sendFileInternalTrace df target chunkSize pairs) =
      [target] ∧
    deletesOf (sendFileInternalTrace df target chunkSize pairs) = [] ∧
    concatsOf (sendFileInternalTrace df target chunkSize pairs) = [] := by
  have hb : ¬ chunkSize < (cookRows df).length := by omega
  have ht : sendFileInternalTrace df target chunkSize pairs =
      [Action.submit target
        (make_rows (cookRows df) 0 (cookRows df).length)] := by
    simp only [sendFileInternalTrace, if_neg hb]
  rw [ht]
  refine ⟨rfl, rfl, rfl, rfl⟩

/-- Witness for `send_file_internal_direct_small`: three rows, chunk size
10 (the spec's Scenario 1). -/
theorem send_file_internal_direct_small_witness :
    (cookRows demoDf3).length ≤ 10 ∧
      (sendFileInternalTrace demoDf3 ("out") 10 [] =
        [Action.submit ("out")
          (make_rows (cookRows demoDf3) 0 (cookRows demoDf3).length)] ∧
      submitTargets (sendFileInternalTrace demoDf3 ("out") 10 []) =
        [("out")] ∧
      deletesOf (sendFileInternalTrace demoDf3 ("out") 10 []) = [] ∧
      concatsOf (sendFileInternalTrace demoDf3 ("out") 10 []) = []) :=
  ⟨by decide,
    send_file_internal_direct_small demoDf3 ("out") 10 [] (by decide)⟩

/-! ### Schema-deriver facts (for claim C6) -/

theorem isDigit_isAlphanum (c : Char) (h : c.isDigit = true) :
    c.isAlphanum = true := by
  simp [Char.isAlphanum, h]

theorem goodChars_cons (c : Char) (cs : List Char) :
    goodChars (c :: cs) = (c.isAlpha && (c :: cs).all Char.isAlphanum) :=
  rfl

theorem goodChars_append_alnum (l t : List Char) (hl : goodChars l = true)
    (ht : ∀ x ∈ t, x.isAlphanum = true) : goodChars (l ++ t) = true := by
  cases l with
  | nil => simp [goodChars] at hl
  | cons c cs =>
      simp only [List.cons_append, goodChars_cons, Bool.and_eq_true,
        List.all_eq_true] at hl ⊢
      obtain ⟨h1, h2⟩ := hl
      refine ⟨h1, ?_⟩
      intro x hx
      rcases List.mem_cons.mp hx with rfl | hx2
      · exact h2 x (List.mem_cons_self x cs)
      · rcases List.mem_append.mp hx2 with h3 | h3
        · exact h2 x (List.mem_cons_of_mem c h3)
        · exact ht x h3

theorem goodChars_append_digits (l t : List Char) (hl : goodChars l = true)
    (ht : ∀ x ∈ t, x.isDigit = true) : goodChars (l ++ t) = true :=
  goodChars_append_alnum l t hl (fun x hx => isDigit_isAlphanum x (ht x hx))

theorem goodName_baseName (k : Nat) (nam : String) :
    goodName (baseName k nam).1 = true := by
  have hall : ∀ x ∈ (sanitize nam).data, x.isAlphanum = true := by
    intro x hx
    exact List.of_mem_filter hx
  unfold baseName
  split
  · show goodChars ((("unnamed") ++ natStr k).data) = true
    rw [String.data_append]
    exact goodChars_append_digits _ _ (by decide) (natStr_digits k)
  · rename_i c rest hd
    by_cases hc : c.isDigit
    · rw [if_pos hc]
      show goodChars ((("num") ++ sanitize nam).data) = true
      rw [String.data_append]
      exact goodChars_append_alnum _ _ (by decide) hall
    · rw [if_neg hc]
      show goodChars (sanitize nam).data = true
      rw [hd]
      have hca : c.isAlphanum = true := hall c (hd ▸ List.mem_cons_self c rest)
      have hcalpha : c.isAlpha = true := by
        rw [Char.isAlphanum] at hca
        rcases Bool.or_eq_true_iff.mp hca with h | h
        · exact h
        · exact absurd h hc
      rw [goodChars_cons, hcalpha, Bool.true_and, List.all_eq_true]
      intro x hx
      exact hall x (hd ▸ hx)

theorem entryCandidate_injective (e : String) {a b : Nat} (ha : a ≠ 0)
    (hb : b ≠ 0) (h : entryCandidate e a = entryCandidate e b) : a = b := by
  simp only [entryCandidate, if_neg ha, if_neg hb] at h
  have hd := congrArg String.data h
  simp only [String.data_append] at hd
  exact natStr_injective (String.ext (List.append_cancel_left hd))

theorem exists_fresh_candidate (entries : List String) (e : String) :
    ∃ k ∈ List.range (entries.length + 2), entryCandidate e k ∉ entries := by
  by_contra hcon
  push_neg at hcon
  have hinj : Function.Injective (fun k : Nat => entryCandidate e (k + 1)) := by
    intro a b hab
    have := entryCandidate_injective e (Nat.succ_ne_zero a)
      (Nat.succ_ne_zero b) hab
    omega
  have hsub : (Finset.range (entries.length + 1)).image
      (fun k => entryCandidate e (k + 1)) ⊆ entries.toFinset := by
    intro x hx
    obtain ⟨k, hk, rfl⟩ := Finset.mem_image.mp hx
    have hk2 : k + 1 ∈ List.range (entries.length + 2) := by
      rw [Finset.mem_range] at hk
      rw [List.mem_range]
      omega
    exact List.mem_toFinset.mpr (hcon (k + 1) hk2)
  have hcard := Finset.card_le_card hsub
  rw [Finset.card_image_of_injective _ hinj, Finset.card_range] at hcard
  have := entries.toFinset_card_le
  omega

theorem pickEntry_not_mem (entries : List String) (e : String) :
    pickEntry entries e ∉ entries := by
  unfold pickEntry
  split
  · rename_i k hk
    have hp := List.find?_some hk
    exact of_decide_eq_true hp
  · rename_i hnone
    exfalso
    obtain ⟨k, hk, hfresh⟩ := exists_fresh_candidate entries e
    have hnot := List.find?_eq_none.mp hnone k hk
    exact hnot (decide_eq_true hfresh)

theorem GoodEntry_candidate (e : String) (he : GoodEntry e) (k : Nat) :
    GoodEntry (entryCandidate e k) := by
  obtain ⟨nm, rfl, hnm⟩ := he
  by_cases hk : k = 0
  · subst hk
    exact ⟨nm, rfl, hnm⟩
  · refine ⟨nm ++ natStr k, ?_, ?_⟩
    · simp only [entryCandidate, if_neg hk, String.append_assoc]
    · show goodChars ((nm ++ natStr k).data) = true
      rw [String.data_append]
      exact goodChars_append_digits _ _ hnm (natStr_digits k)

theorem GoodEntry_pickEntry (entries : List String) (e : String)
    (he : GoodEntry e) : GoodEntry (pickEntry entries e) := by
  unfold pickEntry
  split
  · rename_i k _
    exact GoodEntry_candidate e he k
  · exact he

theorem recordEntriesGo_spec :
    ∀ (cs : List String) (entries : List String) (k : Nat),
      entries.Nodup → (∀ e ∈ entries, GoodEntry e) →
      ((recordEntriesGo cs entries k).length = entries.length + cs.length ∧
        (recordEntriesGo cs entries k).Nodup ∧
        ∀ e ∈ recordEntriesGo cs entries k, GoodEntry e) := by
  intro cs
  induction cs with
  | nil =>
      intro entries k h1 h2
      exact ⟨by simp [recordEntriesGo], h1, h2⟩
  | cons nam rest ih =>
      intro entries k h1 h2
      have hfresh :=
        pickEntry_not_mem entries (("STRING ") ++ (baseName k nam).1)
      have hgood :
          GoodEntry (pickEntry entries (("STRING ") ++ (baseName k nam).1)) :=
        GoodEntry_pickEntry entries _
          ⟨(baseName k nam).1, rfl, goodName_baseName k nam⟩
      have h1' : (entries ++
          [pickEntry entries (("STRING ") ++ (baseName k nam).1)]).Nodup := by
        rw [List.nodup_append]
        refine ⟨h1, List.nodup_singleton _, ?_⟩
        intro a ha hb
        rw [List.mem_singleton] at hb
        subst hb
        exact hfresh ha
      have h2' : ∀ e ∈ entries ++
          [pickEntry entries (("STRING ") ++ (baseName k nam).1)],
          GoodEntry e := by
        intro e he
        rcases List.mem_append.mp he with he | he
        · exact h2 e he
        · rw [List.mem_singleton] at he
          subst he
          exact hgood
      have hrec := ih
        (entries ++ [pickEntry entries (("STRING ") ++ (baseName k nam).1)])
        (baseName k nam).2 h1' h2'
      simp only [recordEntriesGo]
      refine ⟨?_, hrec.2.1, hrec.2.2⟩
      have hl1 : (entries ++
          [pickEntry entries (("STRING ") ++ (baseName k nam).1)]).length =
            entries.length + 1 := by
        simp
      rw [hrec.1, hl1, List.length_cons]
      omega

/-- Claim C6 counterexample: `spray.py:_make_record_set` performs no
sanitization — on a frame whose single column is named `2 Cost!` the
derived schema entry keeps the raw name, which does not match
`^[A-Za-z][A-Za-z0-9]*$`. -/
theorem spray_record_set_unsafe_name :
    sprayRecordPairs [("2 Cost!")] = [(("2 Cost!"), ("STRING"))] ∧
    spray_make_record_set [("2 Cost!")] = ("2 Cost! STRING") ∧
    goodName ("2 Cost!") = false := by
  refine ⟨by decide, by decide, by decide⟩

/-- Claim C6 (amended, proved for `sendfiles.py:make_recordset`, the
deriver the spec's algorithm describes): the derived schema has one entry
per column, every entry is `STRING ` followed by a safe name matching
`^[A-Za-z][A-Za-z0-9]*$` (sanitized, `unnamed<N>`-substituted,
`num`-prefixed, suffixed on collision), and no two entries are identical.
`spray.py:_make_record_set` does not sanitize (see the counterexample). -/
theorem make_recordset_entries_spec (cols : List String) :
    (make_recordset_entries cols).length = cols.length ∧
    (make_recordset_entries cols).Nodup ∧
    ∀ e ∈ make_recordset_entries cols, GoodEntry e := by
  have h := recordEntriesGo_spec cols [] 0 List.nodup_nil
    (by intro e he; cases he)
  simpa [make_recordset_entries] using h

/-- Witness for `make_recordset_entries_spec` on the spec's Scenario 3
columns (`2 Cost!` twice and an anonymous column): three entries, no two
identical, and the concretely evaluated first entry `STRING num2Cost` is
well-formed. -/
theorem make_recordset_entries_spec_witness :
    (make_recordset_entries [("2 Cost!"), ("2 Cost!"), ("")]).length = 3 ∧
    (make_recordset_entries [("2 Cost!"), ("2 Cost!"), ("")]).Nodup ∧
    GoodEntry (("STRING ") ++ ("num2Cost")) :=
  ⟨(make_recordset_entries_spec [("2 Cost!"), ("2 Cost!"), ("")]).1,
    (make_recordset_entries_spec [("2 Cost!"), ("2 Cost!"), ("")]).2.1,
    (make_recordset_entries_spec [("2 Cost!"), ("2 Cost!"), ("")]).2.2
      (("STRING ") ++ ("num2Cost")) (by decide)⟩

/-- Claim C5 (code bug, evaluated at the failing input): in the chunked
path of `sendfiles.py`, every chunk submission is sent to the FINAL
target name (`send_data` receives `target_name`, not `target_name_tmp`),
while the concatenation script references the computed
`TEMPHPYCC::<target>from<start>to<end>` names — none of which was ever
submitted to. -/
theorem send_file_in_chunks_wrong_target :
    submitTargets
        (sendChunksTrace (cookRows demoDf4) ("out") [(0, 1), (2, 3)]) =
      [("out"), ("out")] ∧
    concatsOf
        (sendChunksTrace (cookRows demoDf4) ("out") [(0, 1), (2, 3)]) =
      [Action.concat [tmpName ("out") 0 1, tmpName ("out") 2 3] ("out")] ∧
    ("out") ∉ [tmpName ("out") 0 1, tmpName ("out") 2 3] := by
  refine ⟨rfl, rfl, by decide⟩

/-! ### Serializer null/escape facts (for claim C7) -/

/-- Claim C7 counterexample: the `spray.py` serializer
(`_stringify_rows`, whose per-cell STRING transformation is `quoteCell`)
does NOT blank textual null markers: a cell holding the text `NA` — which
lowercases to one of the markers the claim covers — serializes to
`'NA'`, not to `''`. -/
theorem stringify_keeps_na_marker :
    quoteCell (some ("NA")) = sq ++ ("NA") ++ sq ∧
    lowerStr ("NA") ∈ nullMarkers ∧
    quoteCell (some ("NA")) ≠ sq ++ sq ∧
    stringify_rows (DataFrame.mk [("col")] [[some ("NA")]]) 0 0 =
      ("\x7b0,") ++ sq ++ ("NA") ++ sq ++ ("\x7d") := by
  refine ⟨rfl, by decide, by decide, rfl⟩

/-- Claim C7 (amended, proved for `sendfiles.py:make_recordset`, whose
per-cell STRING transformation is `normalizeCell`): every cell whose text
lowercases to `nan`, `na` or `null` (including a true missing value,
rendered `nan` by `astype(str)`) serializes to the empty string in
quotes, `''`; every other cell is wrapped in single quotes with each
internal single quote escaped to backslash-quote; in particular
`O'Brien` becomes `'O\'Brien'`.  The `spray.py` serializer only fills
true missing values and does not blank the textual markers (see the
counterexample). -/
theorem make_recordset_string_cells :
    (∀ c : Option String,
      lowerStr (astypeStr c) ∈ nullMarkers → normalizeCell c = sq ++ sq) ∧
    (∀ s : String,
      lowerStr s ∉ nullMarkers →
        normalizeCell (some s) = sq ++ escapeQuotes s ++ sq) ∧
    normalizeCell (some (("O") ++ sq ++ ("Brien"))) =
      sq ++ ("O") ++ bs ++ sq ++ ("Brien") ++ sq := by
  refine ⟨?_, ?_, ?_⟩
  · intro c h
    unfold normalizeCell
    rw [if_pos h]
    rfl
  · intro s h
    unfold normalizeCell
    simp only [astypeStr]
    rw [if_neg h]
  · decide

/-- Witness for `make_recordset_string_cells`: a textual `NaN` cell is
blanked to `''`; a plain cell is quoted. -/
theorem make_recordset_string_cells_witness :
    normalizeCell (some ("NaN")) = sq ++ sq ∧
    normalizeCell (some ("x")) = sq ++ escapeQuotes ("x") ++ sq :=
  ⟨make_recordset_string_cells.1 (some ("NaN")) (by decide),
    make_recordset_string_cells.2.1 ("x") (by decide)⟩

/-! ### Cleanup-trace facts (for claim C8) -/

theorem deletesOf_append (a b : List Action) :
    deletesOf (a ++ b) = deletesOf a ++ deletesOf b := by
  simp [deletesOf, List.filterMap_append]

theorem deletesOf_eq_nil (l : List Action)
    (h : ∀ a ∈ l, deleteName a = none) : deletesOf l = [] := by
  induction l with
  | nil => rfl
  | cons a t ih =>
      unfold deletesOf
      rw [List.filterMap_cons, h a (List.mem_cons_self a t)]
      exact ih (fun x hx => h x (List.mem_cons_of_mem a hx))

theorem deletesOf_map_deleteLF (l : List String) :
    deletesOf (l.map Action.deleteLF) = l := by
  induction l with
  | nil => rfl
  | cons a t ih =>
      unfold deletesOf
      rw [List.map_cons, List.filterMap_cons]
      show a :: List.filterMap deleteName (t.map Action.deleteLF) = a :: t
      exact congrArg (List.cons a) ih

theorem sprayFileRun_ok (gw : Action → Except String Unit) (df : DataFrame)
    (target : String) (chunkSize : Nat)
    (h : gw (Action.concat (sprayTmpNames df target chunkSize) target) =
      Except.ok ()) :
    sprayFileRun gw df target chunkSize =
      (((make_chunks df.rows.length chunkSize).zip
          (sprayTmpNames df target chunkSize)).map
        (fun pn => Action.submit pn.2 (stringify_rows df pn.1.1 pn.1.2)) ++
        [Action.concat (sprayTmpNames df target chunkSize) target] ++
        (sprayTmpNames df target chunkSize).map Action.deleteLF, none) := by
  simp only [sprayFileRun]
  rw [h]

/-- Claim C8 counterexample: on a gateway whose concatenation script
fails, `spray_file` raises the failure and performs NO delete action at
all, although temporaries were created — the cleanup loop sits after
`concatenate_logical_files` with no try/finally, so the error skips it. -/
theorem spray_concat_failure_skips_cleanup :
    (sprayFileRun gwFailConcat demoDf3 ("out") 2).2 = some ("Error") ∧
    deletesOf (sprayFileRun gwFailConcat demoDf3 ("out") 2).1 = [] ∧
    sprayTmpNames demoDf3 ("out") 2 ≠ [] := by
  refine ⟨rfl, rfl, by decide⟩

/-- Claim C8 (amended): in `spray_file`, the temporaries are deleted only
after a SUCCESSFUL concatenation — when the concatenation script
succeeds, every chunk temporary is deleted and the call reports success
(delete failures are reported, not escalated, per the deletion
collaborator's contract); when concatenation fails, the failure
propagates and the cleanup loop is skipped (see the counterexample). -/
theorem spray_deletes_follow_successful_concat
    (gw : Action → Except String Unit) (df : DataFrame) (target : String)
    (chunkSize : Nat)
    (h : gw (Action.concat (sprayTmpNames df target chunkSize) target) =
      Except.ok ()) :
    (sprayFileRun gw df target chunkSize).2 = none ∧
    deletesOf (sprayFileRun gw df target chunkSize).1 =
      sprayTmpNames df target chunkSize := by
  rw [sprayFileRun_ok gw df target chunkSize h]
  refine ⟨rfl, ?_⟩
  have hsub : deletesOf
      (((make_chunks df.rows.length chunkSize).zip
          (sprayTmpNames df target chunkSize)).map
        (fun pn => Action.submit pn.2 (stringify_rows df pn.1.1 pn.1.2))) =
        [] := by
    apply deletesOf_eq_nil
    intro a ha
    obtain ⟨pn, _, rfl⟩ := List.mem_map.mp ha
    rfl
  have hcon : deletesOf
      [Action.concat (sprayTmpNames df target chunkSize) target] = [] := rfl
  rw [deletesOf_append, deletesOf_append, hsub, hcon,
    deletesOf_map_deleteLF]
  simp

/-- Witness for `spray_deletes_follow_successful_concat`: the three-row
frame, chunk size 2, on the all-success gateway. -/
theorem spray_deletes_follow_successful_concat_witness :
    (sprayFileRun gwOk demoDf3 ("out") 2).2 = none ∧
    deletesOf (sprayFileRun gwOk demoDf3 ("out") 2).1 =
      sprayTmpNames demoDf3 ("out") 2 :=
  spray_deletes_follow_successful_concat gwOk demoDf3 ("out") 2 rfl

/-- Claim C9: a DataFrame passed directly to the spray operation is
unchanged when the call returns — `_make_record_set` only reads it, and
each chunk's `_stringify_rows` works on the copy produced by
`df.loc[slice, column-list]` (pandas fancy indexing), so the quoting,
escaping and `reset_index` never touch the caller's object. -/
theorem spray_frame_unchanged (df : DataFrame) (chunkSize : Nat) :
    sprayFileRunDf df chunkSize = df := by
  unfold sprayFileRunDf
  generalize make_chunks df.rows.length chunkSize = plan
  induction plan generalizing df with
  | nil => rfl
  | cons p rest ih =>
      rw [List.foldl_cons]
      have hstep : (stringifyRowsState df p.1 p.2).2 = df := rfl
      rw [hstep]
      exact ih df

/-- Claim C10: calling `save_outputs` with `filenames` left at its
documented default `None` raises `TypeError` (from
`itertools.zip_longest(None, parsed_filenames)`) before any output file
is written to disk — for every gateway result, directory and prefix, the
run writes nothing and raises. -/
theorem save_outputs_none_filenames_type_error
    (results : List (String × String)) (directory : String)
    (pre : Option String) :
    save_outputs none results directory pre =
      SaveRun.mk [] (some ("TypeError")) := rfl

end Hpycc
